import Mathlib

/-!
Verification development for the deals list view
(`src/components/ListView.tsx`): a shallow embedding of the record-list
engine — filtering, sorting, pagination, selection, inline edit dispatch,
and column-width persistence — together with theorems settling the
specification claims.

Conventions of the embedding:
* JavaScript numbers that occur here (probabilities, currency values,
  durations, pixel widths, timestamps) are integers in the program, so they
  are modelled as `Int`; `Option` models `undefined` fields.
* `Array.prototype.sort` (stable per ES2019) is modelled by
  `List.mergeSort`, the canonical stable sort.
* The host's `new Date(string)` parser is modelled by `jsDateParse`
  (see its doc comment); an unparsable string yields `none`, which the
  comparator treats as the `NaN` timestamp of an Invalid Date.
-/

namespace ListView

/-- The value a sort comparison operates on: a JavaScript number
(`Int`, since all compared numbers and timestamps here are integral),
the `NaN` produced by an Invalid Date, or a string. -/
inductive JSVal where
  | num : Int → JSVal
  | nan : JSVal
  | str : String → JSVal
deriving DecidableEq, Repr

def JSVal.isNum : JSVal → Bool
  | .num _ => true
  | _ => false

def JSVal.isStr : JSVal → Bool
  | .str _ => true
  | _ => false

/-- JavaScript `<` on the values produced by the sort-key extraction.
Any comparison involving `NaN` is `false`.  A number/string mix never
arises: both operands of one comparison always come from the same field
branch of the comparator, so these cases are irrelevant and map to
`false` as well. -/
def ltJS : JSVal → JSVal → Bool
  | .num a, .num b => decide (a < b)
  | .str s, .str t => decide (s < t)
  | _, _ => false

/-- Per-character lowercasing, the model of `String.prototype.toLowerCase`. -/
def strLower (s : String) : String :=
  ⟨s.data.map Char.toLower⟩

def charsStartWith : List Char → List Char → Bool
  | _, [] => true
  | [], _ :: _ => false
  | h :: hs, n :: ns => h == n && charsStartWith hs ns

def charsContain : List Char → List Char → Bool
  | [], needle => needle.isEmpty
  | h :: t, needle => charsStartWith (h :: t) needle || charsContain t needle

/-- `hay.includes(needle)` on strings. -/
def strContains (hay needle : String) : Bool :=
  charsContain hay.data needle.data

def digitsToNat (cs : List Char) : Nat :=
  cs.foldl (fun n c => 10 * n + (c.toNat - 48)) 0

/-- Model of the host's `new Date(string)` parser (the source delegates
date parsing to the JavaScript engine): a nonempty digit string parses to
that integer timestamp, every other string is unparsable and yields an
Invalid Date, i.e. `none` here and the `NaN` key in `sortKey`. -/
def jsDateParse (s : String) : Option Int :=
  if s.data.isEmpty then none
  else if s.data.all Char.isDigit then some (Int.ofNat (digitsToNat s.data))
  else none

/-- A deal record (`Deal` from `@/types/deal`), restricted to the fields
the list view reads.  `undefined`-able fields are `Option`. -/
structure Deal where
  id : String
  deal_name : Option String := none
  project_name : Option String := none
  lead_name : Option String := none
  customer_name : Option String := none
  region : Option String := none
  lead_owner : Option String := none
  stage : String := "Lead"
  handoff_status : Option String := none
  priority : Option Int := none
  probability : Option Int := none
  project_duration : Option Int := none
  total_contract_value : Option Int := none
  total_revenue : Option Int := none
  expected_closing_date : Option String := none
  start_date : Option String := none
  end_date : Option String := none
  proposal_due_date : Option String := none
  created_at : Option String := none
  modified_at : Option String := none
deriving DecidableEq, Repr

/-- Dynamic access `deal[field]` for the numeric sort fields. -/
def numField (d : Deal) : String → Option Int
  | "priority" => d.priority
  | "probability" => d.probability
  | "project_duration" => d.project_duration
  | "total_contract_value" => d.total_contract_value
  | "total_revenue" => d.total_revenue
  | _ => none

/-- Dynamic access `deal[field]` for the date sort fields. -/
def dateField (d : Deal) : String → Option String
  | "expected_closing_date" => d.expected_closing_date
  | "start_date" => d.start_date
  | "end_date" => d.end_date
  | "proposal_due_date" => d.proposal_due_date
  | "created_at" => d.created_at
  | "modified_at" => d.modified_at
  | _ => none

/-- Dynamic access `deal[field]` for the remaining (string) fields. -/
def strField (d : Deal) : String → Option String
  | "id" => some d.id
  | "deal_name" => d.deal_name
  | "project_name" => d.project_name
  | "lead_name" => d.lead_name
  | "customer_name" => d.customer_name
  | "region" => d.region
  | "lead_owner" => d.lead_owner
  | "stage" => some d.stage
  | "handoff_status" => d.handoff_status
  | _ => none

def numericSortFields : List String :=
  ["priority", "probability", "project_duration"]

def currencySortFields : List String :=
  ["total_contract_value", "total_revenue"]

def dateSortFields : List String :=
  ["expected_closing_date", "start_date", "end_date", "created_at",
   "modified_at", "proposal_due_date"]

/-- The comparison value (`aValue`/`bValue`) the sort comparator extracts
from a record, following the field-category branches of the source:
numeric fields use `deal[field] || 0`; date fields build
`new Date(typeof v === 'string' ? v : 0)` — missing value gives the epoch
(timestamp `0`), an unparsable string gives an Invalid Date whose
timestamp is `NaN`; all other fields use
`String(deal[field] || '').toLowerCase()`. -/
def sortKey (sortField : String) (d : Deal) : JSVal :=
  if numericSortFields.contains sortField then
    .num ((numField d sortField).getD 0)
  else if currencySortFields.contains sortField then
    .num ((numField d sortField).getD 0)
  else if dateSortFields.contains sortField then
    match dateField d sortField with
    | some s =>
      match jsDateParse s with
      | some t => .num t
      | none => .nan
    | none => .num 0
  else
    .str (strLower ((strField d sortField).getD ""))

inductive SortOrder where
  | asc : SortOrder
  | desc : SortOrder
deriving DecidableEq, Repr

/-- The sort comparator: ascending is
`aValue < bValue ? -1 : aValue > bValue ? 1 : 0` and descending is
`aValue > bValue ? -1 : aValue < bValue ? 1 : 0`. -/
def dealCmp (sortField : String) (order : SortOrder) (a b : Deal) : Int :=
  let av := sortKey sortField a
  let bv := sortKey sortField b
  match order with
  | .asc => if ltJS av bv then -1 else if ltJS bv av then 1 else 0
  | .desc => if ltJS bv av then -1 else if ltJS av bv then 1 else 0

/-- The non-strict order induced by the comparator, as used by a
comparator-driven sort: `a` may precede `b` iff the comparator does not
return a positive value. -/
def dealLE (sortField : String) (order : SortOrder) (a b : Deal) : Bool :=
  decide (dealCmp sortField order a b ≤ 0)

/-- `filteredDeals.sort(comparator)`: `Array.prototype.sort` is required
to be stable (ES2019), modelled by the stable `List.mergeSort`. -/
def sortDeals (sortField : String) (order : SortOrder) (l : List Deal) :
    List Deal :=
  l.mergeSort (dealLE sortField order)

/-- `AdvancedFilterState` from `DealsAdvancedFilter`. -/
structure AdvancedFilterState where
  stages : List String := []
  regions : List String := []
  leadOwners : List String := []
  priorities : List String := []
  probabilities : List String := []
  handoffStatuses : List String := []
  searchTerm : String := ""
  probabilityRange : Int × Int := (0, 100)
deriving DecidableEq, Repr

/-- `[searchTerm, filters.searchTerm].filter(Boolean).join(' ').toLowerCase()`. -/
def joinedSearchTerms (searchTerm fsTerm : String) : String :=
  let parts := [searchTerm, fsTerm].filter (fun s => !s.isEmpty)
  strLower (String.intercalate " " parts)

/-- One disjunct of the free-text match: optional chaining makes a missing
field contribute `false` (`undefined?.toLowerCase().includes(...)`). -/
def optFieldIncludes (field : Option String) (terms : String) : Bool :=
  match field with
  | some s => strContains (strLower s) terms
  | none => false

def matchesSearch (d : Deal) (allSearchTerms : String) : Bool :=
  allSearchTerms.isEmpty ||
    optFieldIncludes d.deal_name allSearchTerms ||
    optFieldIncludes d.project_name allSearchTerms ||
    optFieldIncludes d.lead_name allSearchTerms ||
    optFieldIncludes d.customer_name allSearchTerms ||
    optFieldIncludes d.region allSearchTerms

/-- `leadOwnerFilter === "all" || deal.lead_owner === leadOwnerFilter`. -/
def matchesLeadOwnerDropdown (leadOwnerFilter : String) (d : Deal) : Bool :=
  leadOwnerFilter == "all" || d.lead_owner == some leadOwnerFilter

def matchesStages (fs : AdvancedFilterState) (d : Deal) : Bool :=
  fs.stages.isEmpty || fs.stages.contains d.stage

def matchesRegions (fs : AdvancedFilterState) (d : Deal) : Bool :=
  fs.regions.isEmpty || fs.regions.contains (d.region.getD "")

def matchesLeadOwners (fs : AdvancedFilterState) (d : Deal) : Bool :=
  fs.leadOwners.isEmpty || fs.leadOwners.contains (d.lead_owner.getD "")

/-- `String(v || '')` for an optional number: `undefined` and the falsy
`0` give the empty string. -/
def numOrEmptyString (v : Option Int) : String :=
  match v with
  | none => ""
  | some n => if n = 0 then "" else toString n

def matchesPriorities (fs : AdvancedFilterState) (d : Deal) : Bool :=
  fs.priorities.isEmpty || fs.priorities.contains (numOrEmptyString d.priority)

def matchesProbabilities (fs : AdvancedFilterState) (d : Deal) : Bool :=
  fs.probabilities.isEmpty ||
    fs.probabilities.contains (numOrEmptyString d.probability)

def matchesHandoffStatuses (fs : AdvancedFilterState) (d : Deal) : Bool :=
  fs.handoffStatuses.isEmpty ||
    fs.handoffStatuses.contains (d.handoff_status.getD "")

/-- `const dealProbability = deal.probability || 0` followed by the
inclusive range check against `filters.probabilityRange`. -/
def matchesProbabilityRange (fs : AdvancedFilterState) (d : Deal) : Bool :=
  let dealProbability := d.probability.getD 0
  decide (fs.probabilityRange.1 ≤ dealProbability) &&
    decide (dealProbability ≤ fs.probabilityRange.2)

/-- The complete filter predicate of `filteredAndSortedDeals`. -/
def dealMatches (fs : AdvancedFilterState) (searchTerm leadOwnerFilter : String)
    (d : Deal) : Bool :=
  matchesSearch d (joinedSearchTerms searchTerm fs.searchTerm) &&
    matchesLeadOwnerDropdown leadOwnerFilter d &&
    matchesStages fs d &&
    matchesRegions fs d &&
    matchesLeadOwners fs d &&
    matchesPriorities fs d &&
    matchesProbabilities fs d &&
    matchesHandoffStatuses fs d &&
    matchesProbabilityRange fs d

/-- The six categorical multi-select dimensions of the filter. -/
inductive FilterDimension where
  | stages | regions | leadOwners | priorities | probabilities
  | handoffStatuses
deriving DecidableEq, Repr

def dimensionValues (dim : FilterDimension) (fs : AdvancedFilterState) :
    List String :=
  match dim with
  | .stages => fs.stages
  | .regions => fs.regions
  | .leadOwners => fs.leadOwners
  | .priorities => fs.priorities
  | .probabilities => fs.probabilities
  | .handoffStatuses => fs.handoffStatuses

/-- The filter predicate with one categorical dimension's conjunct omitted
entirely (the comparison point for the empty-allowed-set no-op claim). -/
def dealMatchesOmit (dim : FilterDimension) (fs : AdvancedFilterState)
    (searchTerm leadOwnerFilter : String) (d : Deal) : Bool :=
  matchesSearch d (joinedSearchTerms searchTerm fs.searchTerm) &&
    matchesLeadOwnerDropdown leadOwnerFilter d &&
    (if dim = .stages then true else matchesStages fs d) &&
    (if dim = .regions then true else matchesRegions fs d) &&
    (if dim = .leadOwners then true else matchesLeadOwners fs d) &&
    (if dim = .priorities then true else matchesPriorities fs d) &&
    (if dim = .probabilities then true else matchesProbabilities fs d) &&
    (if dim = .handoffStatuses then true else matchesHandoffStatuses fs d) &&
    matchesProbabilityRange fs d

/-- `itemsPerPage` (fixed at 25). -/
def itemsPerPage : Nat := 25

/-- `Math.ceil(filteredAndSortedDeals.length / itemsPerPage)` on a natural
count (exact, since both operands are naturals). -/
def totalPages (n : Nat) : Nat :=
  (n + itemsPerPage - 1) / itemsPerPage

/-- The page count the footer displays: `totalPages || 1`. -/
def displayedTotalPages (n : Nat) : Nat :=
  if totalPages n = 0 then 1 else totalPages n

/-- `filteredAndSortedDeals.slice(startIndex, startIndex + itemsPerPage)`
with `startIndex = (currentPage - 1) * itemsPerPage`. -/
def paginatedDeals (l : List Deal) (currentPage : Nat) : List Deal :=
  (l.drop ((currentPage - 1) * itemsPerPage)).take itemsPerPage

/-- `new Set(list)`: deduplicate keeping first occurrences in insertion
order. -/
def insertUnique (l : List String) (x : String) : List String :=
  if l.contains x then l else l ++ [x]

def setFromList (l : List String) : List String :=
  l.foldl insertUnique []

/-- The component state of `ListView` that the claims concern. -/
structure ListViewState where
  filters : AdvancedFilterState
  searchTerm : String
  leadOwnerFilter : String
  sortBy : String
  sortOrder : SortOrder
  selectedDeals : List String
  currentPage : Nat
deriving Repr

/-- The initial `filters` state (`initialStageFilter` seeds `stages`). -/
def initialFilters (initialStageFilter : String) : AdvancedFilterState :=
  { stages := if initialStageFilter ≠ "all" then [initialStageFilter] else []
    regions := [], leadOwners := [], priorities := [], probabilities := []
    handoffStatuses := [], searchTerm := "", probabilityRange := (0, 100) }

/-- The `useState` initial values of the component. -/
def initState (initialStageFilter : String) : ListViewState :=
  { filters := initialFilters initialStageFilter
    searchTerm := ""
    leadOwnerFilter := "all"
    sortBy := "modified_at"
    sortOrder := .desc
    selectedDeals := []
    currentPage := 1 }

/-- `filteredAndSortedDeals`: filter then sort, derived on each render
from the props and the current state. -/
def filteredAndSortedDeals (deals : List Deal) (s : ListViewState) :
    List Deal :=
  sortDeals s.sortBy s.sortOrder
    (deals.filter (dealMatches s.filters s.searchTerm s.leadOwnerFilter))

/-- `handleSelectAll`: checking the header checkbox selects the ids of
ALL filtered-and-sorted deals; unchecking clears the selection. -/
def handleSelectAll (deals : List Deal) (s : ListViewState)
    (checked : Bool) : ListViewState :=
  if checked then
    { s with selectedDeals :=
        setFromList ((filteredAndSortedDeals deals s).map Deal.id) }
  else
    { s with selectedDeals := [] }

/-- `handleSelectDeal`: add or remove one id in the selection set. -/
def handleSelectDeal (s : ListViewState) (dealId : String)
    (checked : Bool) : ListViewState :=
  if checked then
    { s with selectedDeals := insertUnique s.selectedDeals dealId }
  else
    { s with selectedDeals := s.selectedDeals.filter (fun x => x ≠ dealId) }

/-- `handleBulkDelete`: no-op on an empty selection; otherwise the ids
passed to `onDeleteDeals` (first component) and the cleared state. -/
def handleBulkDelete (s : ListViewState) : Option (List String) × ListViewState :=
  if s.selectedDeals.isEmpty then (none, s)
  else (some s.selectedDeals, { s with selectedDeals := [] })

/-- The discrete user events that drive the state transitions the claims
quantify over. -/
inductive ListAction where
  | setFilters (fs : AdvancedFilterState)
  | setSearchTerm (t : String)
  | setLeadOwnerFilter (o : String)
  | headerSortClick (field : String)
  | nextPageClick
  | prevPageClick
  | selectAllToggle (checked : Bool)
  | rowSelectToggle (dealId : String) (checked : Bool)
  | clearSelection
  | bulkDeleteClick

/-- One state transition.  The three filter-ish setters reset
`currentPage` to 1 (the `useEffect` with deps
`[filters, searchTerm, leadOwnerFilter]`); a header click only changes
the sort state; Previous/Next are rendered only when `totalPages > 0`,
disabled at the respective boundary, and clamp with
`Math.max(1, p - 1)` / `Math.min(totalPages, p + 1)`. -/
def step (deals : List Deal) (s : ListViewState) (a : ListAction) :
    ListViewState :=
  match a with
  | .setFilters fs => { s with filters := fs, currentPage := 1 }
  | .setSearchTerm t => { s with searchTerm := t, currentPage := 1 }
  | .setLeadOwnerFilter o => { s with leadOwnerFilter := o, currentPage := 1 }
  | .headerSortClick field =>
      if s.sortBy = field then
        { s with sortOrder := if s.sortOrder = .asc then .desc else .asc }
      else
        { s with sortBy := field, sortOrder := .desc }
  | .nextPageClick =>
      let tp := totalPages (filteredAndSortedDeals deals s).length
      if 0 < tp ∧ s.currentPage ≠ tp then
        { s with currentPage := min tp (s.currentPage + 1) }
      else s
  | .prevPageClick =>
      let tp := totalPages (filteredAndSortedDeals deals s).length
      if 0 < tp ∧ s.currentPage ≠ 1 then
        { s with currentPage := max 1 (s.currentPage - 1) }
      else s
  | .selectAllToggle checked => handleSelectAll deals s checked
  | .rowSelectToggle dealId checked => handleSelectDeal s dealId checked
  | .clearSelection => { s with selectedDeals := [] }
  | .bulkDeleteClick => (handleBulkDelete s).2

/-- The pagination invariant: the current page stays in
`[1, max 1 totalPages]`. -/
def pageInv (deals : List Deal) (s : ListViewState) : Prop :=
  1 ≤ s.currentPage ∧
    s.currentPage ≤ max 1 (totalPages (filteredAndSortedDeals deals s).length)

/-- A toast notice (`useToast`). -/
structure ToastMsg where
  title : String
  description : String
  destructive : Bool
deriving DecidableEq, Repr

/-- Whether the awaited `onUpdateDeal` call resolved or rejected. -/
inductive UpdateOutcome where
  | resolved : UpdateOutcome
  | rejected : UpdateOutcome

/-- `handleInlineEdit`: dispatch one cell edit to the external update
collaborator and toast the outcome.  The function performs no state
update on the record collection (the deals are props re-read from the
caller), so the local records are returned unchanged in both branches. -/
def handleInlineEdit (deals : List Deal) (outcome : UpdateOutcome)
    (_dealId _field _value : String) : ToastMsg × List Deal :=
  match outcome with
  | .resolved =>
      ({ title := "Deal updated"
         description := "Field updated successfully"
         destructive := false }, deals)
  | .rejected =>
      ({ title := "Update failed"
         description := "Failed to update deal field"
         destructive := true }, deals)

/-- The `useState` defaults of `columnWidths`. -/
def defaultColumnWidths : List (String × Int) :=
  [("project_name", 200), ("customer_name", 150), ("lead_name", 150),
   ("lead_owner", 140), ("stage", 120), ("priority", 100),
   ("total_contract_value", 120), ("probability", 120),
   ("expected_closing_date", 140), ("region", 120),
   ("project_duration", 120), ("start_date", 120), ("end_date", 120),
   ("proposal_due_date", 140), ("total_revenue", 120)]

/-- The startup load of `deals-column-widths`: the stored value is
absent (`none`), present but malformed (`some none`, `JSON.parse`
throws), or parses to a width map.  A parsed map REPLACES the state
wholesale (`setColumnWidths(parsed)`); a malformed value is logged
(second component `true`) and the defaults are kept. -/
def loadColumnWidths (stored : Option (Option (List (String × Int)))) :
    List (String × Int) × Bool :=
  match stored with
  | none => (defaultColumnWidths, false)
  | some none => (defaultColumnWidths, true)
  | some (some parsed) => (parsed, false)

/-- The width used at render time: `columnWidths[field] || 120` (a falsy
stored `0` also falls back). -/
def lookupWidth (widths : List (String × Int)) (field : String) : Int :=
  match widths.lookup field with
  | some w => if w = 0 then 120 else w
  | none => 120

/-- `{ ...prev, [field]: w }`: replace the binding if the key exists
(keeping its position), else append it. -/
def assocSet (widths : List (String × Int)) (field : String) (w : Int) :
    List (String × Int) :=
  if widths.any (fun p => p.1 == field) then
    widths.map (fun p => if p.1 == field then (p.1, w) else p)
  else
    widths ++ [(field, w)]

/-- The resize-session state (`isResizing`, `startX`, `startWidth`). -/
structure ResizeSession where
  isResizing : Option String
  startX : Int
  startWidth : Int
deriving Repr

/-- `handleMouseMove`: outside a session nothing happens; during a
session the resized column's width becomes
`Math.max(80, startWidth + (clientX - startX))`. -/
def handleMouseMove (rs : ResizeSession) (widths : List (String × Int))
    (clientX : Int) : List (String × Int) :=
  match rs.isResizing with
  | none => widths
  | some field =>
      let deltaX := clientX - rs.startX
      let newWidth := max 80 (rs.startWidth + deltaX)
      assocSet widths field newWidth

/-- A deal with every optional field absent. -/
def blankDeal : Deal := { id := "d" }

/-! ### Helper lemmas -/

theorem mem_insertUnique {l : List String} {x y : String} :
    y ∈ insertUnique l x ↔ y ∈ l ∨ y = x := by
  unfold insertUnique
  by_cases h : x ∈ l
  · rw [if_pos (List.elem_iff.mpr h)]
    constructor
    · exact Or.inl
    · rintro (hy | rfl)
      · exact hy
      · exact h
  · have hc : l.contains x = false := by
      cases hq : l.contains x
      · rfl
      · exact absurd (List.elem_iff.mp hq) h
    rw [hc]
    simp [or_comm]

theorem mem_setFromList_aux (l : List String) :
    ∀ (acc : List String) (y : String),
      y ∈ l.foldl insertUnique acc ↔ y ∈ acc ∨ y ∈ l := by
  induction l with
  | nil => intro acc y; simp
  | cons x t ih =>
      intro acc y
      simp only [List.foldl_cons, ih, mem_insertUnique, List.mem_cons]
      tauto

theorem mem_setFromList {l : List String} {y : String} :
    y ∈ setFromList l ↔ y ∈ l := by
  unfold setFromList
  rw [mem_setFromList_aux]
  simp

theorem lookup_append_single (m : List (String × Int)) (f : String) (w : Int)
    (h : m.any (fun p => p.1 == f) = false) :
    (m ++ [(f, w)]).lookup f = some w := by
  induction m with
  | nil => simp
  | cons p t ih =>
      simp only [List.any_cons, Bool.or_eq_false_iff] at h
      have hne : p.1 ≠ f := by
        intro he
        rw [he] at h
        simp at h
      have hb2 : (f == p.1) = false := beq_eq_false_iff_ne.mpr (Ne.symm hne)
      rw [List.cons_append, List.lookup_cons, hb2]
      exact ih h.2

theorem lookup_map_replace (m : List (String × Int)) (f : String) (w : Int)
    (h : m.any (fun p => p.1 == f) = true) :
    (m.map (fun p => if p.1 == f then (p.1, w) else p)).lookup f = some w := by
  induction m with
  | nil => simp at h
  | cons p t ih =>
      simp only [List.any_cons, Bool.or_eq_true] at h
      by_cases hb : p.1 = f
      · have hb1 : (p.1 == f) = true := beq_iff_eq.mpr hb
        have hb2 : (f == p.1) = true := beq_iff_eq.mpr hb.symm
        simp only [List.map_cons, hb1, if_true]
        rw [List.lookup_cons, hb2]
      · have hb1 : (p.1 == f) = false := beq_eq_false_iff_ne.mpr hb
        have hb2 : (f == p.1) = false := beq_eq_false_iff_ne.mpr (Ne.symm hb)
        have ht : t.any (fun p => p.1 == f) = true := by
          rcases h with h | h
          · rw [hb1] at h
            exact absurd h (by simp)
          · exact h
        simp only [List.map_cons, hb1, if_false, Bool.false_eq_true]
        rw [List.lookup_cons, hb2]
        exact ih ht

theorem lookup_assocSet (m : List (String × Int)) (f : String) (w : Int) :
    (assocSet m f w).lookup f = some w := by
  unfold assocSet
  cases h : m.any (fun p => p.1 == f)
  · simp only [Bool.false_eq_true, if_false]
    exact lookup_append_single m f w h
  · simp only [if_true]
    exact lookup_map_replace m f w h

theorem length_filteredAndSortedDeals (deals : List Deal)
    (s : ListViewState) :
    (filteredAndSortedDeals deals s).length =
      (deals.filter
        (dealMatches s.filters s.searchTerm s.leadOwnerFilter)).length := by
  simp [filteredAndSortedDeals, sortDeals]

theorem mem_filteredAndSortedDeals {deals : List Deal} {s : ListViewState}
    {d : Deal} :
    d ∈ filteredAndSortedDeals deals s ↔
      d ∈ deals.filter (dealMatches s.filters s.searchTerm s.leadOwnerFilter) := by
  simp [filteredAndSortedDeals, sortDeals]

/-! ### C2 — Paginator page count -/

/-- C2 (counterexample): the claim asserts the computed total number of
pages is at least 1 when the record list is empty, but the code computes
`Math.ceil(0 / 25) = 0`. -/
theorem totalPages_empty_is_zero : ¬ (1 ≤ totalPages 0) := by decide

/-- C2 (amended): `totalPages` is exactly `ceil(n / 25)` — characterized
as the least page count covering all `n` records — but it is `0`, not
`1`, for an empty list; the minimum of 1 applies only to the displayed
page count `totalPages || 1`.  The 30-record scenario holds: 2 pages,
page 1 holding the first 25 records and page 2 the remaining 5. -/
theorem pagination_page_count :
    (∀ n : Nat, n ≤ itemsPerPage * totalPages n ∧
      itemsPerPage * totalPages n < n + itemsPerPage ∧
      (∀ k : Nat, n ≤ itemsPerPage * k → totalPages n ≤ k)) ∧
    totalPages 0 = 0 ∧
    (∀ n : Nat, displayedTotalPages n = max 1 (totalPages n)) ∧
    (∀ l : List Deal, l.length = 30 →
      totalPages l.length = 2 ∧
      paginatedDeals l 1 = l.take 25 ∧
      paginatedDeals l 2 = l.drop 25 ∧
      (paginatedDeals l 1).length = 25 ∧
      (paginatedDeals l 2).length = 5) := by
  refine ⟨fun n => ⟨?_, ?_, fun k hk => ?_⟩, by decide, fun n => ?_, fun l hl => ?_⟩
  · unfold totalPages itemsPerPage
    omega
  · unfold totalPages itemsPerPage
    omega
  · unfold totalPages itemsPerPage at *
    omega
  · unfold displayedTotalPages
    rcases Nat.eq_zero_or_pos (totalPages n) with h | h
    · rw [if_pos h, h]
      decide
    · rw [if_neg (by omega)]
      omega
  · have h1 : paginatedDeals l 1 = l.take 25 := by
      unfold paginatedDeals itemsPerPage
      norm_num
    have h2 : paginatedDeals l 2 = l.drop 25 := by
      unfold paginatedDeals itemsPerPage
      norm_num
      omega
    refine ⟨by rw [hl]; decide, h1, h2, ?_, ?_⟩
    · rw [h1, List.length_take, hl]
      omega
    · rw [h2, List.length_drop, hl]

/-- C2 (witness): the amended theorem applied at 30 concrete records. -/
theorem pagination_page_count_witness :
    totalPages 30 ≤ 2 ∧
    totalPages (List.replicate 30 blankDeal).length = 2 ∧
    (paginatedDeals (List.replicate 30 blankDeal) 2).length = 5 := by
  refine ⟨(pagination_page_count.1 30).2.2 2 (by decide), ?_, ?_⟩
  · exact (pagination_page_count.2.2.2 (List.replicate 30 blankDeal)
      (by simp)).1
  · exact (pagination_page_count.2.2.2 (List.replicate 30 blankDeal)
      (by simp)).2.2.2.2

/-! ### C9 — Resize width floor -/

/-- C9: during an active resize session a pointer move sets the resized
column's width to `max(80, startWidth + (pointerX - startX))`; any
request below 80px is clamped to exactly 80px; outside a session the
widths are untouched. -/
theorem resize_width_floor (rs : ResizeSession)
    (widths : List (String × Int)) (clientX : Int) :
    (∀ field, rs.isResizing = some field →
      lookupWidth (handleMouseMove rs widths clientX) field =
        max 80 (rs.startWidth + (clientX - rs.startX)) ∧
      (rs.startWidth + (clientX - rs.startX) < 80 →
        lookupWidth (handleMouseMove rs widths clientX) field = 80)) ∧
    (rs.isResizing = none → handleMouseMove rs widths clientX = widths) := by
  constructor
  · intro field hf
    have hmain :
        lookupWidth (handleMouseMove rs widths clientX) field =
          max 80 (rs.startWidth + (clientX - rs.startX)) := by
      unfold handleMouseMove
      rw [hf]
      unfold lookupWidth
      rw [lookup_assocSet]
      have hpos : max (80 : Int) (rs.startWidth + (clientX - rs.startX)) ≠ 0 := by
        have := le_max_left (80 : Int) (rs.startWidth + (clientX - rs.startX))
        omega
      show (if max (80 : Int) (rs.startWidth + (clientX - rs.startX)) = 0
        then (120 : Int)
        else max (80 : Int) (rs.startWidth + (clientX - rs.startX))) =
          max (80 : Int) (rs.startWidth + (clientX - rs.startX))
      rw [if_neg hpos]
    refine ⟨hmain, fun hlt => ?_⟩
    rw [hmain]
    exact max_eq_left (le_of_lt hlt)
  · intro hn
    unfold handleMouseMove
    rw [hn]

/-- C9 (witness): a concrete session whose pointer move requests width 40
and gets exactly 80. -/
theorem resize_width_floor_witness :
    (100 : Int) + (-50 - 10) < 80 ∧
    lookupWidth
      (handleMouseMove ⟨some "stage", 10, 100⟩ defaultColumnWidths (-50))
      "stage" = 80 := by
  refine ⟨by decide, ?_⟩
  exact ((resize_width_floor ⟨some "stage", 10, 100⟩ defaultColumnWidths
    (-50)).1 "stage" rfl).2 (by decide)

/-! ### C10 — Missing probability in the range filter -/

/-- C10: a record with a missing probability (and likewise probability 0)
is treated as probability 0 by the range filter, so it passes exactly
when the range's inclusive lower bound is ≤ 0 (the upper bound of the
slider state is never negative). -/
theorem probability_range_missing (fs : AdvancedFilterState) (d : Deal)
    (hp : d.probability = none ∨ d.probability = some 0)
    (hhi : 0 ≤ fs.probabilityRange.2) :
    matchesProbabilityRange fs d = decide (fs.probabilityRange.1 ≤ 0) := by
  rcases hp with h | h <;>
    simp [matchesProbabilityRange, h, hhi]

/-- C10 (witness): with the default range `[0, 100]` a missing
probability passes; with lower bound 10 it is excluded. -/
theorem probability_range_missing_witness :
    matchesProbabilityRange { probabilityRange := (0, 100) } blankDeal = true ∧
    matchesProbabilityRange { probabilityRange := (10, 100) } blankDeal = false := by
  constructor
  · rw [probability_range_missing { probabilityRange := (0, 100) } blankDeal
      (Or.inl rfl) (by decide)]
    decide
  · rw [probability_range_missing { probabilityRange := (10, 100) } blankDeal
      (Or.inl rfl) (by decide)]
    decide

/-! ### C8 — Column-width persistence load -/

/-- C8 (counterexample): loading is not merge-over-defaults.  A persisted
map containing only `stage` replaces the whole width state; the default
`project_name` width 200 is lost and the render fallback 120 is used
instead. -/
theorem column_widths_load_not_merge :
    (loadColumnWidths (some (some [("stage", 300)]))).1 = [("stage", 300)] ∧
    lookupWidth (loadColumnWidths (some (some [("stage", 300)]))).1
      "project_name" = 120 ∧
    lookupWidth defaultColumnWidths "project_name" = 200 ∧
    (120 : Int) ≠ 200 := by
  refine ⟨rfl, ?_, ?_, by decide⟩ <;> decide

/-- C8 (amended): a parsed persisted map replaces the width state
wholesale (a field absent from it falls back to the generic 120px render
default, not to its per-field default); an absent store keeps the
defaults; malformed persisted data is discarded, the defaults are kept,
and the failure is logged, not surfaced. -/
theorem column_widths_load (m : List (String × Int)) (f : String) (w : Int) :
    loadColumnWidths none = (defaultColumnWidths, false) ∧
    loadColumnWidths (some none) = (defaultColumnWidths, true) ∧
    (loadColumnWidths (some (some m))).1 = m ∧
    (m.lookup f = none →
      lookupWidth (loadColumnWidths (some (some m))).1 f = 120) ∧
    (m.lookup f = some w → w ≠ 0 →
      lookupWidth (loadColumnWidths (some (some m))).1 f = w) := by
  refine ⟨rfl, rfl, rfl, fun hn => ?_, fun hs hw => ?_⟩
  · unfold lookupWidth loadColumnWidths
    rw [hn]
  · unfold lookupWidth loadColumnWidths
    rw [hs]
    show (if w = 0 then (120 : Int) else w) = w
    rw [if_neg hw]

/-- C8 (witness): the amended theorem applied to the one-entry persisted
map of the counterexample. -/
theorem column_widths_load_witness :
    lookupWidth (loadColumnWidths (some (some [("stage", 300)]))).1
      "project_name" = 120 ∧
    lookupWidth (loadColumnWidths (some (some [("stage", 300)]))).1
      "stage" = 300 := by
  constructor
  · exact (column_widths_load [("stage", 300)] "project_name" 0).2.2.2.1
      (by decide)
  · exact (column_widths_load [("stage", 300)] "stage" 300).2.2.2.2
      (by decide) (by decide)

/-! ### C7 — Inline edit failure handling -/

/-- C7 (counterexample): the failure notice does not name the edited
field — it is the same constant toast for every field, and its text does
not contain the field name. -/
theorem inline_edit_failure_notice_generic :
    (handleInlineEdit [] .rejected "d1" "probability" "50").1 =
      (handleInlineEdit [] .rejected "d1" "stage" "Won").1 ∧
    ("probability" : String) ≠ "stage" ∧
    strContains
      (handleInlineEdit [] .rejected "d1" "probability" "50").1.description
      "probability" = false := by
  refine ⟨rfl, by decide, by decide⟩

/-- C7 (amended): when the update collaborator rejects a cell edit, a
fixed failure notice ("Update failed" / "Failed to update deal field",
destructive variant) is signaled — it does not name the specific field —
and no local record state is changed in either outcome (the records are
returned exactly as passed in; there is no retry and no optimistic
application). -/
theorem inline_edit_failure (deals : List Deal)
    (dealId field value : String) :
    (∀ outcome, (handleInlineEdit deals outcome dealId field value).2 = deals) ∧
    (handleInlineEdit deals .rejected dealId field value).1 =
      { title := "Update failed"
        description := "Failed to update deal field"
        destructive := true } ∧
    (∀ (deals2 : List Deal) (i2 f2 v2 : String),
      (handleInlineEdit deals .rejected dealId field value).1 =
        (handleInlineEdit deals2 .rejected i2 f2 v2).1) := by
  refine ⟨fun outcome => ?_, rfl, fun _ _ _ _ => rfl⟩
  cases outcome <;> rfl

/-! ### C6 — Empty allowed-set is a no-op -/

/-- C6: if the allowed-set of a categorical dimension is empty, the filter
behaves exactly as if that dimension's constraint were omitted entirely —
both pointwise on every record and on every filtered collection. -/
theorem filter_empty_dimension_noop (dim : FilterDimension)
    (fs : AdvancedFilterState) (searchTerm leadOwnerFilter : String)
    (h : dimensionValues dim fs = []) :
    (∀ d, dealMatches fs searchTerm leadOwnerFilter d =
      dealMatchesOmit dim fs searchTerm leadOwnerFilter d) ∧
    (∀ deals : List Deal,
      deals.filter (dealMatches fs searchTerm leadOwnerFilter) =
        deals.filter (dealMatchesOmit dim fs searchTerm leadOwnerFilter)) := by
  have hp : ∀ d, dealMatches fs searchTerm leadOwnerFilter d =
      dealMatchesOmit dim fs searchTerm leadOwnerFilter d := by
    intro d
    cases dim <;>
      simp_all [dimensionValues, dealMatches, dealMatchesOmit,
        matchesStages, matchesRegions, matchesLeadOwners, matchesPriorities,
        matchesProbabilities, matchesHandoffStatuses, beq_iff_eq]
  exact ⟨hp, fun deals => List.filter_congr (fun d _ => hp d)⟩

/-- C6 (witness): with an empty stage allowed-set, filtering a concrete
record equals filtering with the stage constraint omitted. -/
theorem filter_empty_dimension_noop_witness :
    [blankDeal].filter (dealMatches { stages := [] } "" "all") =
      [blankDeal].filter (dealMatchesOmit .stages { stages := [] } "" "all") := by
  exact (filter_empty_dimension_noop .stages { stages := [] } "" "all"
    rfl).2 [blankDeal]

/-! ### C3 — Pagination-state invariant -/

theorem pageInv_iff (deals : List Deal) (s : ListViewState) :
    pageInv deals s ↔ 1 ≤ s.currentPage ∧
      s.currentPage ≤ max 1 (totalPages
        ((deals.filter
          (dealMatches s.filters s.searchTerm s.leadOwnerFilter)).length)) := by
  unfold pageInv
  rw [length_filteredAndSortedDeals]

/-- C3 (amended): starting from the mount state, `currentPage` always
lies in `[1, max 1 totalPages]` after every state transition, and it is
reset to 1 whenever the filter state, the free-text term, or the
lead-owner dropdown changes — but NOT when the sort state changes (the
reset effect's dependencies are only `[filters, searchTerm,
leadOwnerFilter]`), and no clamping is applied before slicing; the
bounds hold because Previous/Next themselves clamp. -/
theorem pagination_state_invariant :
    (∀ (isf : String) (deals : List Deal), pageInv deals (initState isf)) ∧
    (∀ (deals : List Deal) (s : ListViewState) (a : ListAction),
      pageInv deals s → pageInv deals (step deals s a)) ∧
    (∀ (deals : List Deal) (s : ListViewState) (fs : AdvancedFilterState),
      (step deals s (ListAction.setFilters fs)).currentPage = 1) ∧
    (∀ (deals : List Deal) (s : ListViewState) (t : String),
      (step deals s (ListAction.setSearchTerm t)).currentPage = 1) ∧
    (∀ (deals : List Deal) (s : ListViewState) (o : String),
      (step deals s (ListAction.setLeadOwnerFilter o)).currentPage = 1) := by
  refine ⟨fun isf deals => ?_, fun deals s a h => ?_,
    fun _ _ _ => rfl, fun _ _ _ => rfl, fun _ _ _ => rfl⟩
  · rw [pageInv_iff]
    exact ⟨Nat.le_refl 1, Nat.le_max_left 1 _⟩
  · rw [pageInv_iff] at h ⊢
    cases a with
    | setFilters fs => exact ⟨Nat.le_refl 1, Nat.le_max_left 1 _⟩
    | setSearchTerm t => exact ⟨Nat.le_refl 1, Nat.le_max_left 1 _⟩
    | setLeadOwnerFilter o => exact ⟨Nat.le_refl 1, Nat.le_max_left 1 _⟩
    | headerSortClick f =>
        simp only [step]
        split <;> exact h
    | nextPageClick =>
        simp only [step, length_filteredAndSortedDeals]
        split
        · rename_i hcond
          refine ⟨?_, ?_⟩ <;> simp only [] <;> omega
        · exact h
    | prevPageClick =>
        simp only [step, length_filteredAndSortedDeals]
        split
        · rename_i hcond
          refine ⟨?_, ?_⟩ <;> simp only [] <;> omega
        · exact h
    | selectAllToggle checked =>
        simp only [step, handleSelectAll]
        split <;> exact h
    | rowSelectToggle dealId checked =>
        simp only [step, handleSelectDeal]
        split <;> exact h
    | clearSelection => exact h
    | bulkDeleteClick =>
        simp only [step, handleBulkDelete]
        split <;> exact h

/-- C3 (witness): the invariant, transported across a concrete Next-page
transition from the mount state. -/
theorem pagination_state_invariant_witness :
    pageInv [] (step [] (initState "all") ListAction.nextPageClick) :=
  pagination_state_invariant.2.1 [] (initState "all") ListAction.nextPageClick
    (pagination_state_invariant.1 "all" [])

/-- 26 identical records: two pages of filtered output. -/
def dealsTwoPages : List Deal := List.replicate 26 blankDeal

/-- C3 (counterexample): a sort change does NOT reset `currentPage` to 1.
From the mount state over 26 matching records, Next moves to page 2 and a
header click on `probability` leaves `currentPage = 2`. -/
theorem page_not_reset_on_sort_change :
    (step dealsTwoPages
      (step dealsTwoPages (initState "all") ListAction.nextPageClick)
      (ListAction.headerSortClick "probability")).currentPage = 2 ∧
    (2 : Nat) ≠ 1 := by
  have hsort : ∀ (deals : List Deal) (s : ListViewState) (f : String),
      (step deals s (ListAction.headerSortClick f)).currentPage =
        s.currentPage := by
    intro deals s f
    simp only [step]
    split <;> rfl
  rw [hsort]
  have hfil : dealsTwoPages.filter
      (dealMatches (initState "all").filters (initState "all").searchTerm
        (initState "all").leadOwnerFilter) = dealsTwoPages := by
    refine List.filter_eq_self.mpr (fun d hd => ?_)
    rw [List.eq_of_mem_replicate hd]
    decide
  have hlen : (filteredAndSortedDeals dealsTwoPages (initState "all")).length
      = 26 := by
    rw [length_filteredAndSortedDeals, hfil]
    decide
  simp only [step, hlen]
  decide

/-! ### C1 — Select-all scope -/

/-- C1 (amended): checking the header select-all checkbox selects exactly
the identifiers of ALL filtered-and-sorted records — across every page,
not only the current one; unchecking clears the selection; bulk delete
then hands exactly the selected ids to `onDeleteDeals` and clears the
selection (and is a no-op on an empty selection). -/
theorem select_all_selects_all_filtered (deals : List Deal)
    (s : ListViewState) :
    (∀ i, i ∈ (handleSelectAll deals s true).selectedDeals ↔
      i ∈ (deals.filter
        (dealMatches s.filters s.searchTerm s.leadOwnerFilter)).map Deal.id) ∧
    (handleSelectAll deals s false).selectedDeals = [] ∧
    (s.selectedDeals ≠ [] →
      handleBulkDelete s =
        (some s.selectedDeals, { s with selectedDeals := [] })) ∧
    (s.selectedDeals = [] → handleBulkDelete s = (none, s)) := by
  refine ⟨fun i => ?_, rfl, fun hne => ?_, fun he => ?_⟩
  · show i ∈ setFromList ((filteredAndSortedDeals deals s).map Deal.id) ↔ _
    rw [mem_setFromList]
    simp only [List.mem_map, mem_filteredAndSortedDeals]
  · unfold handleBulkDelete
    rw [if_neg (by simp [hne])]
  · unfold handleBulkDelete
    rw [if_pos (by simp [he])]

/-- C1 (witness): a nonempty concrete selection is handed verbatim to the
bulk delete, and select-all over one matching record selects its id. -/
theorem select_all_selects_all_filtered_witness :
    (handleBulkDelete
        { initState "all" with selectedDeals := ["a", "b"] }).1 =
      some ["a", "b"] ∧
    ("d" ∈ (handleSelectAll [blankDeal] (initState "all") true).selectedDeals ↔
      "d" ∈ ([blankDeal].filter
        (dealMatches (initState "all").filters (initState "all").searchTerm
          (initState "all").leadOwnerFilter)).map Deal.id) := by
  constructor
  · rw [(select_all_selects_all_filtered []
      { initState "all" with selectedDeals := ["a", "b"] }).2.2.1
      (by decide)]
  · exact (select_all_selects_all_filtered [blankDeal] (initState "all")).1 "d"

/-- 26 records with distinct ids `"0"` … `"25"`, all matching the mount
filter state. -/
def dealsDistinct : List Deal :=
  (List.range 26).map (fun n => { id := toString n })

theorem dealMatches_initial_id (x : String) :
    dealMatches (initState "all").filters (initState "all").searchTerm
      (initState "all").leadOwnerFilter { id := x } = true := rfl

theorem dealLE_modified_none (x y : Deal) (hx : x.modified_at = none)
    (hy : y.modified_at = none) :
    dealLE "modified_at" SortOrder.desc x y = true := by
  have hkx : sortKey "modified_at" x = JSVal.num 0 := by
    unfold sortKey
    rw [if_neg (by decide), if_neg (by decide), if_pos (by decide)]
    unfold dateField
    rw [hx]
    rfl
  have hky : sortKey "modified_at" y = JSVal.num 0 := by
    unfold sortKey
    rw [if_neg (by decide), if_neg (by decide), if_pos (by decide)]
    unfold dateField
    rw [hy]
    rfl
  unfold dealLE dealCmp
  rw [hkx, hky]
  decide

theorem filteredAndSorted_dealsDistinct :
    filteredAndSortedDeals dealsDistinct (initState "all") = dealsDistinct := by
  have hfil : dealsDistinct.filter
      (dealMatches (initState "all").filters (initState "all").searchTerm
        (initState "all").leadOwnerFilter) = dealsDistinct := by
    refine List.filter_eq_self.mpr (fun d hd => ?_)
    obtain ⟨n, _, rfl⟩ := List.mem_map.mp hd
    exact dealMatches_initial_id (toString n)
  have hsorted : sortDeals "modified_at" SortOrder.desc dealsDistinct =
      dealsDistinct := by
    refine List.mergeSort_of_sorted
      (List.pairwise_of_forall_mem_list (fun a ha b hb => ?_))
    obtain ⟨n, _, rfl⟩ := List.mem_map.mp ha
    obtain ⟨m, _, rfl⟩ := List.mem_map.mp hb
    exact dealLE_modified_none _ _ rfl rfl
  show sortDeals (initState "all").sortBy (initState "all").sortOrder
      (dealsDistinct.filter
        (dealMatches (initState "all").filters (initState "all").searchTerm
          (initState "all").leadOwnerFilter)) = dealsDistinct
  rw [hfil]
  exact hsorted

/-- C1 (counterexample): with 26 matching records (page size 25), on page
1 select-all selects the id `"25"` of the record on page 2 — not only the
ids visible on the current page. -/
theorem select_all_not_page_local :
    ((handleSelectAll dealsDistinct (initState "all") true).selectedDeals.contains
      "25") = true ∧
    (((paginatedDeals (filteredAndSortedDeals dealsDistinct (initState "all"))
        (initState "all").currentPage).map Deal.id).contains "25") = false := by
  constructor
  · show (setFromList
      ((filteredAndSortedDeals dealsDistinct (initState "all")).map
        Deal.id)).contains "25" = true
    rw [filteredAndSorted_dealsDistinct]
    decide
  · rw [filteredAndSorted_dealsDistinct]
    decide

/-! ### C4 — Missing-value defaults in the sort comparator -/

theorem ltJS_nan_left (v : JSVal) : ltJS JSVal.nan v = false := by
  cases v <;> rfl

theorem ltJS_nan_right (v : JSVal) : ltJS v JSVal.nan = false := by
  cases v <;> rfl

/-- C4 (amended): a record lacking a numeric sort field (priority,
probability, duration, monetary value, revenue) is compared as if the
field were 0, and a record lacking a date sort field is compared as the
epoch origin (timestamp 0), so absent dates sort as earliest — but an
UNPARSABLE date string yields the `NaN` timestamp of an Invalid Date,
which compares equal to every value (ties in both directions) rather
than as the epoch origin. -/
theorem sort_missing_value_defaults :
    (∀ (f : String) (d : Deal),
      f ∈ numericSortFields ++ currencySortFields →
      numField d f = none → sortKey f d = JSVal.num 0) ∧
    (∀ (f : String) (d : Deal), f ∈ dateSortFields →
      dateField d f = none → sortKey f d = JSVal.num 0) ∧
    (∀ (f : String) (d : Deal) (v : String), f ∈ dateSortFields →
      dateField d f = some v → jsDateParse v = none →
      sortKey f d = JSVal.nan) ∧
    (∀ (f : String) (ord : SortOrder) (a b : Deal),
      sortKey f a = JSVal.nan →
      dealCmp f ord a b = 0 ∧ dealCmp f ord b a = 0) := by
  refine ⟨fun f d hf hv => ?_, fun f d hf hv => ?_, fun f d v hf hv hp => ?_,
    fun f ord a b hnan => ?_⟩
  · simp only [numericSortFields, currencySortFields, List.cons_append,
      List.nil_append, List.mem_cons, List.not_mem_nil, or_false] at hf
    rcases hf with rfl | rfl | rfl | rfl | rfl <;>
      unfold sortKey <;>
      rw [hv] <;>
      first
        | (rw [if_pos (by decide)]; rfl)
        | (rw [if_neg (by decide), if_pos (by decide)]; rfl)
  · simp only [dateSortFields, List.mem_cons, List.not_mem_nil,
      or_false] at hf
    rcases hf with rfl | rfl | rfl | rfl | rfl | rfl <;>
      · unfold sortKey
        rw [if_neg (by decide), if_neg (by decide), if_pos (by decide), hv]
  · simp only [dateSortFields, List.mem_cons, List.not_mem_nil,
      or_false] at hf
    rcases hf with rfl | rfl | rfl | rfl | rfl | rfl <;>
      · unfold sortKey
        rw [if_neg (by decide), if_neg (by decide), if_pos (by decide), hv]
        show (match jsDateParse v with
          | some t => JSVal.num t
          | none => JSVal.nan) = JSVal.nan
        rw [hp]
  · unfold dealCmp
    rw [hnan]
    cases ord <;> simp [ltJS_nan_left, ltJS_nan_right]

/-- A record whose date field holds a parsable timestamp `"5"`. -/
def dealParsedFive : Deal := { id := "a", start_date := some "5" }

/-- A record whose date field holds an unparsable string. -/
def dealBadDate : Deal := { id := "b", start_date := some "x" }

/-- C4 (witness): the amended theorem applied at concrete records — a
missing probability keys as 0, a missing date keys as the epoch, an
unparsable date keys as `NaN` and ties with everything. -/
theorem sort_missing_value_defaults_witness :
    sortKey "probability" blankDeal = JSVal.num 0 ∧
    sortKey "start_date" blankDeal = JSVal.num 0 ∧
    sortKey "start_date" dealBadDate = JSVal.nan ∧
    dealCmp "start_date" SortOrder.asc dealBadDate dealParsedFive = 0 := by
  refine ⟨?_, ?_, ?_, ?_⟩
  · exact sort_missing_value_defaults.1 "probability" blankDeal
      (by decide) rfl
  · exact sort_missing_value_defaults.2.1 "start_date" blankDeal
      (by decide) rfl
  · exact sort_missing_value_defaults.2.2.1 "start_date" dealBadDate "x"
      (by decide) rfl (by decide)
  · exact (sort_missing_value_defaults.2.2.2 "start_date" SortOrder.asc
      dealBadDate dealParsedFive
      (sort_missing_value_defaults.2.2.1 "start_date" dealBadDate "x"
        (by decide) rfl (by decide))).1

/-- C4 (counterexample): an unparsable date does NOT compare as the
epoch origin.  Its key is `NaN`, not `num 0`; in an ascending date sort
it stays behind a later timestamp (it ties with everything), whereas a
record with a genuinely missing date — keyed as the epoch — moves to the
front as claimed. -/
theorem date_unparsable_not_epoch :
    sortKey "start_date" dealBadDate = JSVal.nan ∧
    JSVal.nan ≠ JSVal.num 0 ∧
    sortDeals "start_date" SortOrder.asc [dealParsedFive, dealBadDate] =
      [dealParsedFive, dealBadDate] ∧
    sortDeals "start_date" SortOrder.asc [dealParsedFive, blankDeal] =
      [blankDeal, dealParsedFive] := by
  refine ⟨by decide, by decide, ?_, ?_⟩
  · have h1 : dealLE "start_date" SortOrder.asc dealParsedFive dealBadDate
        = true := by decide
    simp [sortDeals, List.mergeSort, List.splitInTwo, List.merge, h1]
  · have h2 : dealLE "start_date" SortOrder.asc dealParsedFive blankDeal
        = false := by decide
    simp [sortDeals, List.mergeSort, List.splitInTwo, List.merge, h2]

/-! ### C5 — Sort stability -/

theorem ltJS_irrefl (v : JSVal) : ltJS v v = false := by
  cases v <;> simp [ltJS]

theorem ltJS_asymm {v w : JSVal} (h : ltJS v w = true) : ltJS w v = false := by
  cases v <;> cases w <;> simp [ltJS] at h ⊢
  · omega
  · exact le_of_not_lt (lt_asymm h)

theorem isNum_iff {v : JSVal} : v.isNum = true ↔ ∃ i, v = JSVal.num i := by
  cases v <;> simp [JSVal.isNum]

theorem isStr_iff {v : JSVal} : v.isStr = true ↔ ∃ s, v = JSVal.str s := by
  cases v <;> simp [JSVal.isStr]

/-- `dealLE` for ascending order is exactly "the second key is not
strictly below the first". -/
theorem dealLE_eq_asc (fld : String) (a b : Deal) :
    dealLE fld SortOrder.asc a b = !(ltJS (sortKey fld b) (sortKey fld a)) := by
  unfold dealLE dealCmp
  by_cases h1 : ltJS (sortKey fld a) (sortKey fld b) = true
  · simp [h1, ltJS_asymm h1]
  · cases h2 : ltJS (sortKey fld b) (sortKey fld a) <;>
      simp [h1, h2, eq_false_of_ne_true h1]

theorem dealLE_eq_desc (fld : String) (a b : Deal) :
    dealLE fld SortOrder.desc a b = !(ltJS (sortKey fld a) (sortKey fld b)) := by
  unfold dealLE dealCmp
  by_cases h1 : ltJS (sortKey fld b) (sortKey fld a) = true
  · simp [h1, ltJS_asymm h1]
  · cases h2 : ltJS (sortKey fld a) (sortKey fld b) <;>
      simp [h1, h2, eq_false_of_ne_true h1]

/-- The comparator-induced order is total (for every pair one of the two
directions holds). -/
theorem dealLE_total (fld : String) (ord : SortOrder) (a b : Deal) :
    (dealLE fld ord a b || dealLE fld ord b a) = true := by
  cases ord
  · rw [dealLE_eq_asc, dealLE_eq_asc]
    cases h1 : ltJS (sortKey fld b) (sortKey fld a)
    · simp
    · simp [ltJS_asymm h1]
  · rw [dealLE_eq_desc, dealLE_eq_desc]
    cases h1 : ltJS (sortKey fld a) (sortKey fld b)
    · simp
    · simp [ltJS_asymm h1]

/-- `ltJS` is a transitive-complement relation on homogeneous non-`NaN`
keys: numbers behave like `Int`, strings like `String`. -/
theorem ltJS_false_trans {u v w : JSVal}
    (h3 : (u.isNum ∧ v.isNum ∧ w.isNum) ∨ (u.isStr ∧ v.isStr ∧ w.isStr))
    (huv : ltJS u v = false) (hvw : ltJS v w = false) :
    ltJS u w = false := by
  rcases h3 with ⟨hu, hv, hw⟩ | ⟨hu, hv, hw⟩
  · obtain ⟨i, rfl⟩ := isNum_iff.mp hu
    obtain ⟨j, rfl⟩ := isNum_iff.mp hv
    obtain ⟨k, rfl⟩ := isNum_iff.mp hw
    simp [ltJS] at huv hvw ⊢
    omega
  · obtain ⟨s, rfl⟩ := isStr_iff.mp hu
    obtain ⟨t, rfl⟩ := isStr_iff.mp hv
    obtain ⟨r, rfl⟩ := isStr_iff.mp hw
    simp [ltJS, not_lt] at huv hvw ⊢
    exact le_trans hvw huv

/-- Transitivity of the comparator-induced order on records whose keys
are homogeneous (all numeric or all string, i.e. no `NaN`). -/
theorem dealLE_trans_of_homog (fld : String) (ord : SortOrder)
    (x y z : Deal)
    (h3 : ((sortKey fld x).isNum ∧ (sortKey fld y).isNum ∧
            (sortKey fld z).isNum) ∨
          ((sortKey fld x).isStr ∧ (sortKey fld y).isStr ∧
            (sortKey fld z).isStr))
    (hxy : dealLE fld ord x y = true) (hyz : dealLE fld ord y z = true) :
    dealLE fld ord x z = true := by
  cases ord
  · rw [dealLE_eq_asc] at hxy hyz ⊢
    simp only [Bool.not_eq_true'] at hxy hyz ⊢
    refine ltJS_false_trans ?_ hyz hxy
    tauto
  · rw [dealLE_eq_desc] at hxy hyz ⊢
    simp only [Bool.not_eq_true'] at hxy hyz ⊢
    refine ltJS_false_trans ?_ hxy hyz
    tauto

/-- A tie of the comparator means equal keys, provided neither key is
`NaN` (both numeric or both string). -/
theorem sortKey_eq_of_cmp_zero (fld : String) (ord : SortOrder)
    (a b : Deal)
    (h2 : (sortKey fld a).isNum ∧ (sortKey fld b).isNum ∨
          (sortKey fld a).isStr ∧ (sortKey fld b).isStr)
    (h : dealCmp fld ord a b = 0) : sortKey fld a = sortKey fld b := by
  have hboth : ltJS (sortKey fld a) (sortKey fld b) = false ∧
      ltJS (sortKey fld b) (sortKey fld a) = false := by
    unfold dealCmp at h
    cases ord <;>
      [cases h1 : ltJS (sortKey fld a) (sortKey fld b) <;>
        cases hb1 : ltJS (sortKey fld b) (sortKey fld a) <;>
        simp_all;
      cases h1 : ltJS (sortKey fld a) (sortKey fld b) <;>
        cases hb1 : ltJS (sortKey fld b) (sortKey fld a) <;>
        simp_all]
  rcases h2 with ⟨ha, hb⟩ | ⟨ha, hb⟩
  · obtain ⟨i, hi⟩ := isNum_iff.mp ha
    obtain ⟨j, hj⟩ := isNum_iff.mp hb
    rw [hi, hj] at hboth ⊢
    have h1 : ¬ i < j := of_decide_eq_false hboth.1
    have h2 : ¬ j < i := of_decide_eq_false hboth.2
    have : i = j := by omega
    rw [this]
  · obtain ⟨s, hs⟩ := isStr_iff.mp ha
    obtain ⟨t, ht⟩ := isStr_iff.mp hb
    rw [hs, ht] at hboth ⊢
    have h1 : ¬ s < t := of_decide_eq_false hboth.1
    have h2 : ¬ t < s := of_decide_eq_false hboth.2
    exact congrArg JSVal.str (le_antisymm (le_of_not_lt h2) (le_of_not_lt h1))

/-- Equal keys always tie. -/
theorem dealCmp_zero_of_key_eq (fld : String) (ord : SortOrder)
    (a b : Deal) (h : sortKey fld a = sortKey fld b) :
    dealCmp fld ord a b = 0 := by
  unfold dealCmp
  rw [h]
  cases ord <;> simp [ltJS_irrefl]

/-- The property "no record's key in the list is the invalid-date `NaN`":
all keys numeric, or all keys string.  It always holds for the numeric
and text sort fields, and for date fields whenever every present date
string parses. -/
def KeysHomog (fld : String) (l : List Deal) : Prop :=
  (∀ d ∈ l, (sortKey fld d).isNum = true) ∨
    (∀ d ∈ l, (sortKey fld d).isStr = true)

/-- Core stability: sorting commutes with filtering by any fixed key
value, so the records carrying one key keep their relative input order. -/
theorem sortDeals_filter_key (fld : String) (ord : SortOrder)
    (l : List Deal) (hkeys : KeysHomog fld l) (v : JSVal) :
    (sortDeals fld ord l).filter (fun d => decide (sortKey fld d = v)) =
      l.filter (fun d => decide (sortKey fld d = v)) := by
  let q : Deal → Bool := fun d => decide (sortKey fld d = v)
  let le' : {x // x ∈ l} → {x // x ∈ l} → Bool :=
    fun x y => dealLE fld ord x.val y.val
  have hmap : (l.attach.mergeSort le').map Subtype.val = sortDeals fld ord l := by
    rw [@List.map_mergeSort _ _ le' (dealLE fld ord) Subtype.val l.attach
      (fun a _ b _ => rfl), List.attach_map_subtype_val]
    rfl
  have htrans : ∀ (x y z : {d // d ∈ l}),
      le' x y = true → le' y z = true → le' x z = true := by
    intro x y z hxy hyz
    refine dealLE_trans_of_homog fld ord x.val y.val z.val ?_ hxy hyz
    rcases hkeys with hk | hk
    · exact Or.inl ⟨hk _ x.2, hk _ y.2, hk _ z.2⟩
    · exact Or.inr ⟨hk _ x.2, hk _ y.2, hk _ z.2⟩
  have htotal : ∀ (x y : {d // d ∈ l}), (le' x y || le' y x) = true :=
    fun x y => dealLE_total fld ord x.val y.val
  have hcq : ∀ x ∈ l.attach.filter (fun x => q x.val), q x.val = true :=
    fun x hx => (List.mem_filter.mp hx).2
  have hpair : (l.attach.filter (fun x => q x.val)).Pairwise
      (fun x y => le' x y = true) := by
    refine List.pairwise_of_forall_mem_list (fun x hx y hy => ?_)
    have hkx : sortKey fld x.val = v := of_decide_eq_true (hcq x hx)
    have hky : sortKey fld y.val = v := of_decide_eq_true (hcq y hy)
    show dealLE fld ord x.val y.val = true
    unfold dealLE
    rw [dealCmp_zero_of_key_eq fld ord _ _ (hkx.trans hky.symm)]
    decide
  have hstab : List.Sublist (l.attach.filter (fun x => q x.val))
      (l.attach.mergeSort le') :=
    List.sublist_mergeSort htrans htotal hpair (List.filter_sublist _)
  have hperm : List.Perm
      ((l.attach.mergeSort le').filter (fun x => q x.val))
      (l.attach.filter (fun x => q x.val)) :=
    (List.mergeSort_perm l.attach le').filter _
  have hsub2 : List.Sublist (l.attach.filter (fun x => q x.val))
      ((l.attach.mergeSort le').filter (fun x => q x.val)) := by
    have h1 := hstab.filter (fun x => q x.val)
    rwa [List.filter_eq_self.mpr hcq] at h1
  have heq : (l.attach.mergeSort le').filter (fun x => q x.val) =
      l.attach.filter (fun x => q x.val) :=
    (hsub2.eq_of_length hperm.length_eq.symm).symm
  calc (sortDeals fld ord l).filter q
      = ((l.attach.mergeSort le').map Subtype.val).filter q := by rw [hmap]
    _ = ((l.attach.mergeSort le').filter (fun x => q x.val)).map
          Subtype.val := by
        rw [List.filter_map]
        rfl
    _ = (l.attach.filter (fun x => q x.val)).map Subtype.val := by rw [heq]
    _ = (l.attach.map Subtype.val).filter q := by
        rw [List.filter_map]
        rfl
    _ = l.filter q := by rw [List.attach_map_subtype_val]

/-- C5 (amended): the sort is stable — records whose keys compare equal
keep their relative input order, in both directions — PROVIDED no
record's key is the `NaN` of an unparsable date string (always true for
numeric and text sort fields; for date fields whenever every present
date value parses).  With a `NaN` key the comparator is inconsistent
(`NaN` ties with everything) and tie order can invert. -/
theorem sort_stable_ties (fld : String) (ord : SortOrder) (l : List Deal)
    (a b : Deal) (hkeys : KeysHomog fld l)
    (hcmp : dealCmp fld ord a b = 0)
    (hsub : List.Sublist [a, b] l) :
    List.Sublist [a, b] (sortDeals fld ord l) := by
  have ha : a ∈ l := hsub.subset (by simp)
  have hb : b ∈ l := hsub.subset (by simp)
  have hab : sortKey fld a = sortKey fld b := by
    refine sortKey_eq_of_cmp_zero fld ord a b ?_ hcmp
    rcases hkeys with hk | hk
    · exact Or.inl ⟨hk _ ha, hk _ hb⟩
    · exact Or.inr ⟨hk _ ha, hk _ hb⟩
  have h1 : List.Sublist [a, b]
      (l.filter (fun d => decide (sortKey fld d = sortKey fld a))) := by
    have h2 := hsub.filter (fun d => decide (sortKey fld d = sortKey fld a))
    rwa [show [a, b].filter
        (fun d => decide (sortKey fld d = sortKey fld a)) = [a, b] by
      simp [List.filter, hab.symm]] at h2
  rw [← sortDeals_filter_key fld ord l hkeys (sortKey fld a)] at h1
  exact h1.trans (List.filter_sublist _)

/-- Two records tying on probability, in insertion order. -/
def dealProbFirst : Deal := { id := "p", probability := some 50 }

def dealProbSecond : Deal := { id := "q", probability := some 50 }

/-- C5 (witness): two records with equal probability keys keep their
input order through an ascending probability sort. -/
theorem sort_stable_ties_witness :
    List.Sublist [dealProbFirst, dealProbSecond]
      (sortDeals "probability" SortOrder.asc [dealProbFirst, dealProbSecond]) :=
  sort_stable_ties "probability" SortOrder.asc
    [dealProbFirst, dealProbSecond] dealProbFirst dealProbSecond
    (Or.inl (by decide)) (by decide) (List.Sublist.refl _)

/-- A record whose date field holds the parsable timestamp `"3"`. -/
def dealParsedThree : Deal := { id := "c", start_date := some "3" }

def dealsDateMix : List Deal := [dealParsedFive, dealBadDate, dealParsedThree]

/-- C5 (counterexample): with an unparsable date present, two records
whose keys compare equal (the `NaN` record ties with everything) do NOT
keep their relative input order: `dealBadDate` precedes
`dealParsedThree` in the input but follows it in the sorted output. -/
theorem sort_ties_broken_by_nan :
    dealCmp "start_date" SortOrder.asc dealBadDate dealParsedThree = 0 ∧
    dealsDateMix.indexOf dealBadDate < dealsDateMix.indexOf dealParsedThree ∧
    sortDeals "start_date" SortOrder.asc dealsDateMix =
      [dealParsedThree, dealParsedFive, dealBadDate] ∧
    [dealParsedThree, dealParsedFive, dealBadDate].indexOf dealParsedThree <
      [dealParsedThree, dealParsedFive, dealBadDate].indexOf dealBadDate := by
  refine ⟨by decide, by decide, ?_, by decide⟩
  have h1 : dealLE "start_date" SortOrder.asc dealParsedFive dealBadDate
      = true := by decide
  have h2 : dealLE "start_date" SortOrder.asc dealParsedFive dealParsedThree
      = false := by decide
  simp [dealsDateMix, sortDeals, List.mergeSort, List.splitInTwo, List.merge,
    h1, h2]

end ListView
